import Mathlib

/-!
# Verification of `trajopt_pick_and_place_constructor.cpp`

Shallow embedding of
`src/exercises/Optimization_Based_Planning/template_ws/src/demo3/src/trajopt_pick_and_place_constructor.cpp`
and proofs about the specified properties of the pick-and-place trajectory
optimization problem constructor.

Modelling conventions:
* C++ `double` arithmetic is modelled over `ℝ`.
* `Eigen::Affine3d` poses are modelled as a translation (`Fin 3 → ℝ`) plus an
  orientation, which we represent directly as a quaternion (`Quaternion ℝ`);
  the data-model invariant is that orientations are unit quaternions.  The
  rotation-matrix pipeline of the source
  (`start_pose.linear().inverse() * end_pose.linear()` followed by
  `Eigen::AngleAxisd` extraction) is represented at the quaternion level:
  for unit quaternions the matrix inverse is quaternion conjugation (`star`)
  and the matrix product is the quaternion product.  `AngleAxisd` extraction
  from a rotation matrix is insensitive to the sign of the representing
  quaternion; Eigen extracts (via the quaternion) `angle = 2*atan2(n, |w|)`
  with `n = ‖vec‖`, which on unit quaternions equals `2 * arcsin n`, and
  `axis = sign(w) * vec / n`, guarded by `angle = 0, axis = (1,0,0)` when
  `n = 0`.  The functions `aaAngle` / `aaAxis` below embed exactly that.
* The external collaborators (tesseract environment and manipulator kinematics)
  are modelled as a record of the values their read-only queries return.
  `BasicKin::calcFwdKin` returns a success flag and writes its output pose
  through a reference; a failing query leaves the (uninitialized) output
  untouched, which we model by an arbitrary `garbagePose` value.
* `trajopt::ProblemConstructionInfo` and the `TermInfo` class hierarchy are
  modelled as records / a tagged union; `push_back` is list append.
  `ConstructProblem` is the external solver-facing conversion and is modelled
  as the identity on the assembled description.
-/

open Real

noncomputable section

/-- A rigid transform (`Eigen::Affine3d`): translation plus orientation.
The orientation is kept as a quaternion (see the module docstring). -/
structure Pose where
  pos : Fin 3 → ℝ
  ori : Quaternion ℝ

/-- Line 72: `xyz_delta = (end_pose.translation() - start_pose.translation()) / (num_steps - 1)`. -/
def xyzDelta (s e : Pose) (numSteps : ℕ) : Fin 3 → ℝ :=
  fun j => (e.pos j - s.pos j) / ((numSteps : ℝ) - 1)

/-- Line 75: `rotation_diff = (start_pose.linear().inverse() * end_pose.linear())`,
at the quaternion level (for a unit quaternion, `star` is the rotation inverse). -/
def rotationDiff (s e : Pose) : Quaternion ℝ :=
  star s.ori * e.ori

/-- Norm of the imaginary (vector) part of a quaternion, `q.vec().norm()` in Eigen. -/
def vecNorm (q : Quaternion ℝ) : ℝ :=
  Real.sqrt (q.imI ^ 2 + q.imJ ^ 2 + q.imK ^ 2)

/-- The axis Eigen's `AngleAxisd` returns for a zero-angle rotation: the unit x axis. -/
def defaultAxis : Fin 3 → ℝ :=
  fun j => if j = 0 then 1 else 0

/-- The imaginary part of a quaternion as a 3-vector. -/
def qVec (q : Quaternion ℝ) : Fin 3 → ℝ :=
  fun j => if j = 0 then q.imI else if j = 1 then q.imJ else q.imK

/-- Line 76, angle part: `Eigen::AngleAxisd` rotation angle of a (unit) quaternion:
`2 * atan2(‖vec‖, |w|) = 2 * arcsin ‖vec‖`, and `0` when the vector part vanishes. -/
def aaAngle (q : Quaternion ℝ) : ℝ :=
  if vecNorm q = 0 then 0 else 2 * Real.arcsin (vecNorm q)

/-- Line 76, axis part: `Eigen::AngleAxisd` rotation axis of a quaternion:
`sign(w) * vec / ‖vec‖`, guarded to `(1,0,0)` when the vector part vanishes
(Eigen's zero-angle guard — no division by zero happens in this case). -/
def aaAxis (q : Quaternion ℝ) : Fin 3 → ℝ :=
  if vecNorm q = 0 then defaultAxis
  else fun j => (if q.re < 0 then -(qVec q j) else qVec q j) / vecNorm q

/-- Line 77: `angle_delta = aa_rotation_diff.angle() / (num_steps - 1)`. -/
def angleDelta (s e : Pose) (numSteps : ℕ) : ℝ :=
  aaAngle (rotationDiff s e) / ((numSteps : ℝ) - 1)

/-- Line 78: `delta_axis = aa_rotation_diff.axis()`. -/
def deltaAxis (s e : Pose) : Fin 3 → ℝ :=
  aaAxis (rotationDiff s e)

/-- Lines 89-92: the quaternion `(cos t, axis.x()*sin t, axis.y()*sin t, axis.z()*sin t)`. -/
def quatOfAngleAxis (t : ℝ) (a : Fin 3 → ℝ) : Quaternion ℝ :=
  ⟨Real.cos t, a 0 * Real.sin t, a 1 * Real.sin t, a 2 * Real.sin t⟩

/-- Lines 89-92: `rotation_delta` at loop index `i`, built with `t = 0.5 * angle_delta * i`. -/
def rotationDelta (s e : Pose) (numSteps i : ℕ) : Quaternion ℝ :=
  quatOfAngleAxis (0.5 * angleDelta s e numSteps * (i : ℝ)) (deltaAxis s e)

/-- Line 93: `rotation = rotation_delta * approach_rotation` — note the order:
the body-frame relative rotation is composed on the LEFT of the start
orientation. -/
def interpOrientation (s e : Pose) (numSteps i : ℕ) : Quaternion ℝ :=
  rotationDelta s e numSteps i * s.ori

/-- Line 87: `pose_constraint->xyz = start_pose.translation() + xyz_delta * i`. -/
def interpPosition (s e : Pose) (numSteps i : ℕ) : Fin 3 → ℝ :=
  fun j => s.pos j + xyzDelta s e numSteps j * (i : ℝ)

/-- `trajopt::TermInfo` tagged union: the four term kinds this file constructs.
`JointConstraintInfo` and `StaticPoseCostInfo` are pushed with `TT_CNT`,
`JointVelTermInfo` and `CollisionCostInfo` with `TT_COST`; the kind of list a
term is stored in records its term type. -/
inductive TermInfo where
  | jointConstraint (timestep : ℕ) (name : String) (vals : List ℝ)
  | jointVel (coeffs : List ℝ) (name : String) (firstStep lastStep : ℤ) (jointName : String)
  | collision (name : String) (continuous : Bool) (firstStep lastStep : ℤ) (gap : ℕ)
      (info : List (ℝ × ℝ))
  | staticPose (link : String) (timestep : ℕ) (xyz : Fin 3 → ℝ) (wxyz : Quaternion ℝ)
      (posCoeffs rotCoeffs : Fin 3 → ℝ) (name : String)

/-- Recognizer for boundary joint constraints. -/
def isJointConstraint : TermInfo → Bool
  | .jointConstraint .. => true
  | _ => false

/-- Recognizer for joint-velocity cost terms. -/
def isJointVel : TermInfo → Bool
  | .jointVel .. => true
  | _ => false

/-- Recognizer for collision cost terms. -/
def isCollision : TermInfo → Bool
  | .collision .. => true
  | _ => false

/-- Recognizer for per-waypoint pose constraint terms. -/
def isStaticPose : TermInfo → Bool
  | .staticPose .. => true
  | _ => false

/-- Timestep of a single-timestep term (boundary / pose constraint). -/
def timestepOf : TermInfo → ℕ
  | .jointConstraint t _ _ => t
  | .staticPose _ t _ _ _ _ _ => t
  | _ => 0

/-- Name of a term. -/
def nameOf : TermInfo → String
  | .jointConstraint _ n _ => n
  | .jointVel _ n _ _ _ => n
  | .collision n _ _ _ _ _ => n
  | .staticPose _ _ _ _ _ _ n => n

/-- Coefficients of a joint-velocity term. -/
def coeffsOf : TermInfo → List ℝ
  | .jointVel cs _ _ _ _ => cs
  | _ => []

/-- Pinned joint values of a boundary joint constraint. -/
def valsOf : TermInfo → List ℝ
  | .jointConstraint _ _ v => v
  | _ => []

/-- `(first_step, last_step)` of a collision cost term. -/
def collisionRangeOf : TermInfo → ℤ × ℤ
  | .collision _ _ f l _ _ => (f, l)
  | _ => (0, 0)

/-- Target position of a pose constraint term. -/
def poseXyzOf : TermInfo → (Fin 3 → ℝ)
  | .staticPose _ _ p _ _ _ _ => p
  | _ => fun _ => 0

/-- Target orientation (`wxyz`) of a pose constraint term. -/
def poseWxyzOf : TermInfo → Quaternion ℝ
  | .staticPose _ _ _ w _ _ _ => w
  | _ => 0

/-- The manipulator handle (`tesseract::BasicKin`): read-only queries used here. -/
structure Manipulator where
  name : String
  jointNames : List String
  baseLinkName : String

/-- The environment collaborator (`tesseract::BasicEnv`), modelled as the values
its read-only queries return.  `calcFwdKin` returns a success flag (`fkOk`) and
writes `fkPose` on success; on failure the output argument keeps its
indeterminate (uninitialized) value, modelled by `garbagePose`. -/
structure Env where
  currentJointValues : List ℝ
  currentJointValuesOf : String → List ℝ
  getManipulator : String → Manipulator
  fkOk : Bool
  fkPose : Pose
  garbagePose : Pose

/-- State of `TrajoptPickAndPlaceConstructor` (lines 9-17). -/
structure Ctor where
  env : Env
  manipulator : String
  eeLink : String
  pickObject : String

/-- Line 16: `kin_ = env->getManipulator(manipulator_)`. -/
def ctorKin (c : Ctor) : Manipulator :=
  c.env.getManipulator c.manipulator

/-- `trajopt::BasicInfo`. -/
structure BasicInfo where
  nSteps : ℕ
  startFixed : Bool
  manip : String

/-- `trajopt::InitInfo::Type`; only `STATIONARY` is used in this file. -/
inductive InitType where
  | stationary

/-- `trajopt::InitInfo`. -/
structure InitInfo where
  type : InitType
  data : List ℝ

/-- `trajopt::ProblemConstructionInfo` (the fields this file sets). -/
structure ProblemConstructionInfo where
  basicInfo : BasicInfo
  kin : Manipulator
  initInfo : InitInfo
  costInfos : List TermInfo
  cntInfos : List TermInfo

/-- Lines 19-28: `addInitialJointPosConstraint` — one `JointConstraintInfo` at
timestep 0 pinning `env_->getCurrentJointValues()` (the WHOLE-robot joint
values: the unscoped query). -/
def addInitialJointPosConstraint (c : Ctor) (pci : ProblemConstructionInfo) :
    ProblemConstructionInfo :=
  { pci with cntInfos := pci.cntInfos ++
      [TermInfo.jointConstraint 0 ("start_pos_constraint") c.env.currentJointValues] }

/-- Lines 35-43: the joint-velocity term for one joint name.  Note line 36:
`jv->coeffs = std::vector<double>(1, 5.0)` — the constant `5.0`, not the
`coeff` parameter of `addJointVelCost`. -/
def jointVelTerm (nSteps : ℕ) (jn : String) : TermInfo :=
  TermInfo.jointVel [(5 : ℝ)] (jn ++ "_vel") 0 ((nSteps : ℤ) - 1) jn

/-- Lines 30-45: `addJointVelCost` — one squared-penalty velocity cost per
manipulator joint, over the full step range.  The `coeff` parameter is unused
by the source (line 36 hard-codes `5.0`); it is kept here for fidelity. -/
def addJointVelCost (c : Ctor) (pci : ProblemConstructionInfo) (coeff : ℝ) :
    ProblemConstructionInfo :=
  { pci with costInfos := pci.costInfos ++
      (ctorKin c).jointNames.map (jointVelTerm pci.basicInfo.nSteps) }

/-- `trajopt::createSafetyMarginDataVector(num, dist_pen, coeff)`: a vector of
`num` identical (distance-penalty, coefficient) entries. -/
def createSafetyMarginDataVector (num : ℕ) (distPen coeff : ℝ) : List (ℝ × ℝ) :=
  List.replicate num (distPen, coeff)

/-- Lines 47-63: `addCollisionCost` — a single discrete (`continuous = false`)
collision cost with `gap = 1` spanning the inclusive step range. -/
def addCollisionCost (c : Ctor) (pci : ProblemConstructionInfo)
    (distPen coeff : ℝ) (firstStep lastStep : ℤ) : ProblemConstructionInfo :=
  { pci with costInfos := pci.costInfos ++
      [TermInfo.collision ("collision") false firstStep lastStep 1
        (createSafetyMarginDataVector (lastStep - firstStep + 1).toNat distPen coeff)] }

/-- Lines 83-98: the pose constraint emitted at loop index `i` of
`addLinearMotion`: global timestep `i + first_time_step`, interpolated
position/orientation, weight 10 on all six degrees of freedom, and name
`"pose_" + std::to_string(i + first_time_step)`. -/
def poseTerm (c : Ctor) (s e : Pose) (numSteps firstTimeStep i : ℕ) : TermInfo :=
  TermInfo.staticPose c.eeLink (i + firstTimeStep) (interpPosition s e numSteps i)
    (interpOrientation s e numSteps i) (fun _ => 10) (fun _ => 10)
    ("pose_" ++ Nat.repr (i + firstTimeStep))

/-- Lines 81-99: the block of pose constraints emitted by one
`addLinearMotion` call (the loop `for (int i = 0; i < num_steps; i++)`). -/
def linearSegmentTerms (c : Ctor) (s e : Pose) (numSteps firstTimeStep : ℕ) : List TermInfo :=
  (List.range numSteps).map (poseTerm c s e numSteps firstTimeStep)

/-- Lines 65-100: `addLinearMotion`.  Note there is NO guard on `num_steps`:
with `num_steps = 1` the divisors `num_steps - 1` on lines 72 and 77 are zero
and the loop still emits one term; no error is raised. -/
def addLinearMotion (c : Ctor) (pci : ProblemConstructionInfo) (s e : Pose)
    (numSteps firstTimeStep : ℕ) : ProblemConstructionInfo :=
  { pci with cntInfos := pci.cntInfos ++ linearSegmentTerms c s e numSteps firstTimeStep }

/-- Lines 107-118 / 138-149: the freshly constructed
`ProblemConstructionInfo`: `n_steps`, `start_fixed = false`, manipulator name,
kinematics handle, and the stationary seed at the MANIPULATOR-scoped current
joint values (`env_->getCurrentJointValues(pci.kin->getName())`). -/
def initialPci (c : Ctor) (nSteps : ℕ) : ProblemConstructionInfo :=
  { basicInfo := { nSteps := nSteps, startFixed := false, manip := c.manipulator }
    kin := ctorKin c
    initInfo := { type := InitType.stationary
                  data := c.env.currentJointValuesOf (ctorKin c).name }
    costInfos := []
    cntInfos := [] }

/-- Lines 102-130: `generatePickProblem`.  `ConstructProblem` (line 128) is the
external conversion to the solver's problem type and is modelled as the
identity, so the result is the assembled description itself. -/
def generatePickProblem (c : Ctor) (approachPose finalPose : Pose)
    (stepsPerPhase : ℕ) : ProblemConstructionInfo :=
  let pci := initialPci c (stepsPerPhase * 2)
  let pci := addJointVelCost c pci 5
  let pci := addInitialJointPosConstraint c pci
  let pci := addLinearMotion c pci approachPose finalPose stepsPerPhase stepsPerPhase
  addCollisionCost c pci 0.025 20 0 (stepsPerPhase : ℤ)

/-- Lines 155-160: the start pose of the first place segment.  The source calls
`pci.kin->calcFwdKin(start_pose, ...)` and IGNORES the returned success flag;
on failure `start_pose` keeps its indeterminate value. -/
def fkStartPose (c : Ctor) : Pose :=
  if c.env.fkOk then c.env.fkPose else c.env.garbagePose

/-- Lines 132-169: `generatePlaceProblem`. -/
def generatePlaceProblem (c : Ctor) (retreatPose approachPose finalPose : Pose)
    (stepsPerPhase : ℕ) : ProblemConstructionInfo :=
  let pci := initialPci c (stepsPerPhase * 3)
  let pci := addJointVelCost c pci 5
  let pci := addInitialJointPosConstraint c pci
  let pci := addLinearMotion c pci (fkStartPose c) retreatPose stepsPerPhase 0
  let pci := addLinearMotion c pci approachPose finalPose stepsPerPhase (stepsPerPhase * 2)
  addCollisionCost c pci 0.025 20 (stepsPerPhase : ℤ) ((stepsPerPhase : ℤ) * 2 - 1)

/-! ## Concrete input data used by counterexamples and witnesses -/

/-- Unit quaternion for a rotation about the x axis with `cos(θ/2) = 3/5`. -/
def qs : Quaternion ℝ := ⟨3 / 5, 4 / 5, 0, 0⟩

/-- Unit quaternion for a rotation about the y axis with `cos(θ/2) = 3/5`. -/
def qd : Quaternion ℝ := ⟨3 / 5, 0, 4 / 5, 0⟩

/-- `qs * qd`: the target end orientation of the demo motion. -/
def qe : Quaternion ℝ := ⟨9 / 25, 12 / 25, 12 / 25, 16 / 25⟩

/-- `qd * qs`: the orientation the source actually reaches at the last step. -/
def qBad : Quaternion ℝ := ⟨9 / 25, 12 / 25, 12 / 25, -(16 / 25)⟩

/-- Demo start pose: origin, orientation `qs`. -/
def demoStart : Pose := ⟨fun _ => 0, qs⟩

/-- Demo end pose: translation `(1,1,1)`, orientation `qe = qs * qd`. -/
def demoEnd : Pose := ⟨fun _ => 1, qe⟩

/-- A two-joint demo manipulator. -/
def demoManip : Manipulator :=
  { name := "right_arm", jointNames := ["j1", "j2"], baseLinkName := "base" }

/-- A demo environment whose forward-kinematics query succeeds. -/
def demoEnv : Env :=
  { currentJointValues := [0, 0]
    currentJointValuesOf := fun _ => [0, 0]
    getManipulator := fun _ => demoManip
    fkOk := true
    fkPose := demoStart
    garbagePose := demoStart }

/-- A demo constructor over `demoEnv`. -/
def demoCtor : Ctor :=
  { env := demoEnv, manipulator := "right_arm", eeLink := "ee", pickObject := "box" }

/-- An environment identical to `demoEnv` except that the forward-kinematics
query fails. -/
def failEnv : Env :=
  { demoEnv with fkOk := false }

/-- A constructor over `failEnv`. -/
def failCtor : Ctor :=
  { demoCtor with env := failEnv }

/-- An environment whose whole-robot joint-state query returns three values
while the manipulator-scoped query returns two: the manipulator is a strict
subset of the robot. -/
def mismatchEnv : Env :=
  { demoEnv with currentJointValues := [0, 0, 0] }

/-- A constructor over `mismatchEnv`. -/
def mismatchCtor : Ctor :=
  { demoCtor with env := mismatchEnv }

/-- Identity pose at the origin. -/
def identityPose : Pose := ⟨fun _ => 0, ⟨1, 0, 0, 0⟩⟩

/-- A pose at the origin oriented by `qd`: differs from `identityPose` by a
pure rotation. -/
def rotOnlyPose : Pose := ⟨fun _ => 0, qd⟩

/-- Numeric value of a decimal digit character (left inverse of `Nat.digitChar`
on `0..9`); used to show decimal numerals are injective. -/
def digitVal (ch : Char) : ℕ :=
  ch.toNat - 48

/-- Reads a decimal digit string back into a number, extending the accumulator
`a`; left inverse of `Nat.toDigitsCore` on its digit output. -/
def valFrom (a : ℕ) (l : List Char) : ℕ :=
  l.foldl (fun x ch => x * 10 + digitVal ch) a

/-- The rotation angle between two orientations: the angle of the axis-angle
decomposition of the relative rotation `p⁻¹ * q` (the same convention the
source uses for the relative rotation on lines 75-76). -/
def angleBetween (p q : Quaternion ℝ) : ℝ :=
  aaAngle (star p * q)

end

/-! ## General lemmas about the interpolation primitives -/

theorem interpPosition_zero (s e : Pose) (n : ℕ) : interpPosition s e n 0 = s.pos := by
  funext j
  simp [interpPosition]

theorem rotationDelta_zero (s e : Pose) (n : ℕ) : rotationDelta s e n 0 = 1 := by
  apply Quaternion.ext <;>
    simp [rotationDelta, quatOfAngleAxis]

theorem interpOrientation_zero (s e : Pose) (n : ℕ) : interpOrientation s e n 0 = s.ori := by
  rw [interpOrientation, rotationDelta_zero, one_mul]

theorem interpPosition_last (s e : Pose) (n : ℕ) (hn : 2 ≤ n) :
    interpPosition s e n (n - 1) = e.pos := by
  have h1 : ((n - 1 : ℕ) : ℝ) = (n : ℝ) - 1 := by
    have h : 1 ≤ n := le_trans one_le_two hn
    push_cast [h]
    ring
  have h2 : (n : ℝ) - 1 ≠ 0 := by
    have h : (2 : ℝ) ≤ (n : ℝ) := by exact_mod_cast hn
    intro hc
    nlinarith
  funext j
  simp only [interpPosition, xyzDelta, h1]
  field_simp

theorem vecNorm_nonneg (q : Quaternion ℝ) : 0 ≤ vecNorm q :=
  Real.sqrt_nonneg _

theorem vecNorm_eq_sqrt (y : Quaternion ℝ) :
    vecNorm y = Real.sqrt (Quaternion.normSq y - y.re ^ 2) := by
  unfold vecNorm
  congr 1
  rw [Quaternion.normSq_def']
  ring

theorem aaAngle_nonneg (q : Quaternion ℝ) : 0 ≤ aaAngle q := by
  unfold aaAngle
  split
  · exact le_refl 0
  · have := Real.arcsin_nonneg.mpr (vecNorm_nonneg q)
    linarith

theorem aaAngle_le_pi (q : Quaternion ℝ) : aaAngle q ≤ Real.pi := by
  unfold aaAngle
  split
  · positivity
  · have := Real.arcsin_le_pi_div_two (vecNorm q)
    linarith

theorem aaAxis_unit (q : Quaternion ℝ) :
    aaAxis q 0 ^ 2 + aaAxis q 1 ^ 2 + aaAxis q 2 ^ 2 = 1 := by
  by_cases h : vecNorm q = 0
  · simp [aaAxis, h, defaultAxis]
  · have hnn : 0 ≤ q.imI ^ 2 + q.imJ ^ 2 + q.imK ^ 2 := by positivity
    have hsq : vecNorm q ^ 2 = q.imI ^ 2 + q.imJ ^ 2 + q.imK ^ 2 := Real.sq_sqrt hnn
    simp only [aaAxis, h, if_neg, ite_false, qVec]
    have h0 : ((0 : Fin 3) = 0) = True := by simp
    have h1v : ((1 : Fin 3) = 0) = False := by simp [Fin.ext_iff]
    have h2v : ((2 : Fin 3) = 0) = False := by simp [Fin.ext_iff]
    have h1w : ((1 : Fin 3) = 1) = True := by simp
    have h2w : ((2 : Fin 3) = 1) = False := by simp [Fin.ext_iff]
    by_cases hw : q.re < 0 <;>
      simp only [hw, ite_true, ite_false, h0, h1v, h2v, h1w, h2w] <;>
      · field_simp
        linarith [hsq]

theorem quatOfAngleAxis_mul (A B : ℝ) (a : Fin 3 → ℝ)
    (ha : a 0 ^ 2 + a 1 ^ 2 + a 2 ^ 2 = 1) :
    quatOfAngleAxis A a * quatOfAngleAxis B a = quatOfAngleAxis (A + B) a := by
  apply Quaternion.ext
  · rw [Quaternion.mul_re]
    show Real.cos A * Real.cos B - a 0 * Real.sin A * (a 0 * Real.sin B)
        - a 1 * Real.sin A * (a 1 * Real.sin B) - a 2 * Real.sin A * (a 2 * Real.sin B)
        = Real.cos (A + B)
    rw [Real.cos_add]
    linear_combination (-(Real.sin A * Real.sin B)) * ha
  · rw [Quaternion.mul_imI]
    show Real.cos A * (a 0 * Real.sin B) + a 0 * Real.sin A * Real.cos B
        + a 1 * Real.sin A * (a 2 * Real.sin B) - a 2 * Real.sin A * (a 1 * Real.sin B)
        = a 0 * Real.sin (A + B)
    rw [Real.sin_add]
    ring
  · rw [Quaternion.mul_imJ]
    show Real.cos A * (a 1 * Real.sin B) - a 0 * Real.sin A * (a 2 * Real.sin B)
        + a 1 * Real.sin A * Real.cos B + a 2 * Real.sin A * (a 0 * Real.sin B)
        = a 1 * Real.sin (A + B)
    rw [Real.sin_add]
    ring
  · rw [Quaternion.mul_imK]
    show Real.cos A * (a 2 * Real.sin B) + a 0 * Real.sin A * (a 1 * Real.sin B)
        - a 1 * Real.sin A * (a 0 * Real.sin B) + a 2 * Real.sin A * Real.cos B
        = a 2 * Real.sin (A + B)
    rw [Real.sin_add]
    ring

theorem star_quatOfAngleAxis (A : ℝ) (a : Fin 3 → ℝ) :
    star (quatOfAngleAxis A a) = quatOfAngleAxis (-A) a := by
  apply Quaternion.ext <;>
    simp [quatOfAngleAxis, Real.cos_neg, Real.sin_neg]

theorem vecNorm_quatOfAngleAxis (t : ℝ) (a : Fin 3 → ℝ)
    (ha : a 0 ^ 2 + a 1 ^ 2 + a 2 ^ 2 = 1) :
    vecNorm (quatOfAngleAxis t a) = |Real.sin t| := by
  unfold vecNorm quatOfAngleAxis
  rw [show (a 0 * Real.sin t) ^ 2 + (a 1 * Real.sin t) ^ 2 + (a 2 * Real.sin t) ^ 2
      = Real.sin t ^ 2 by linear_combination Real.sin t ^ 2 * ha]
  exact Real.sqrt_sq_eq_abs _

theorem re_mul_comm (a b : Quaternion ℝ) : (a * b).re = (b * a).re := by
  rw [Quaternion.mul_re, Quaternion.mul_re]
  ring

theorem re_conj (u x : Quaternion ℝ) (hu : Quaternion.normSq u = 1) :
    (star u * x * u).re = x.re := by
  rw [mul_assoc, re_mul_comm, mul_assoc, Quaternion.self_mul_star, hu]
  simp

theorem normSq_conj (u x : Quaternion ℝ) (hu : Quaternion.normSq u = 1) :
    Quaternion.normSq (star u * x * u) = Quaternion.normSq x := by
  rw [map_mul, map_mul, Quaternion.normSq_star, hu]
  ring

theorem aaAngle_conj (u x : Quaternion ℝ) (hu : Quaternion.normSq u = 1) :
    aaAngle (star u * x * u) = aaAngle x := by
  have hv : vecNorm (star u * x * u) = vecNorm x := by
    rw [vecNorm_eq_sqrt, vecNorm_eq_sqrt, re_conj u x hu, normSq_conj u x hu]
  unfold aaAngle
  rw [hv]

/-- **C7**: for a rotation-only pose difference interpolated over `n` steps with
total relative angle `θ = aaAngle (rotationDiff s e)`, the rotation angle
between consecutive interpolated orientations is the constant `θ / (n - 1)`. -/
theorem c7_constant_step_angle (s e : Pose) (n i : ℕ)
    (hs : Quaternion.normSq s.ori = 1) (he : Quaternion.normSq e.ori = 1)
    (hpos : s.pos = e.pos) (hn : 2 ≤ n) (hi : i + 1 < n) :
    angleBetween (interpOrientation s e n i) (interpOrientation s e n (i + 1))
      = aaAngle (rotationDiff s e) / ((n : ℝ) - 1) := by
  show angleBetween (interpOrientation s e n i) (interpOrientation s e n (i + 1))
      = angleDelta s e n
  have hθ0 : 0 ≤ aaAngle (rotationDiff s e) := aaAngle_nonneg _
  have hθπ : aaAngle (rotationDiff s e) ≤ Real.pi := aaAngle_le_pi _
  have hn1 : (1 : ℝ) ≤ (n : ℝ) - 1 := by
    have h2 : (2 : ℝ) ≤ (n : ℝ) := by exact_mod_cast hn
    linarith
  set δ := angleDelta s e n with hδ
  have hδ0 : 0 ≤ δ := by
    rw [hδ, angleDelta]
    exact div_nonneg hθ0 (by linarith)
  have hδπ : δ ≤ Real.pi := by
    rw [hδ, angleDelta]
    have := div_le_self hθ0 hn1
    linarith
  have hax : deltaAxis s e 0 ^ 2 + deltaAxis s e 1 ^ 2 + deltaAxis s e 2 ^ 2 = 1 :=
    aaAxis_unit (rotationDiff s e)
  have hang : -(0.5 * δ * (i : ℝ)) + 0.5 * δ * ((i + 1 : ℕ) : ℝ) = 0.5 * δ := by
    push_cast
    ring
  have key : star (interpOrientation s e n i) * interpOrientation s e n (i + 1)
      = star s.ori * quatOfAngleAxis (0.5 * δ) (deltaAxis s e) * s.ori := by
    unfold interpOrientation rotationDelta
    rw [star_mul, star_quatOfAngleAxis, mul_assoc, ← mul_assoc (quatOfAngleAxis _ _),
      ← hδ, quatOfAngleAxis_mul _ _ _ hax, hang, ← mul_assoc]
  rw [angleBetween, key, aaAngle_conj _ _ hs]
  have hh0 : 0 ≤ 0.5 * δ := by linarith
  have hhπ : 0.5 * δ ≤ Real.pi / 2 := by linarith
  have hsin0 : 0 ≤ Real.sin (0.5 * δ) :=
    Real.sin_nonneg_of_nonneg_of_le_pi hh0 (by linarith [Real.pi_pos])
  have hvn : vecNorm (quatOfAngleAxis (0.5 * δ) (deltaAxis s e)) = Real.sin (0.5 * δ) := by
    rw [vecNorm_quatOfAngleAxis _ _ hax, abs_of_nonneg hsin0]
  unfold aaAngle
  rw [hvn]
  by_cases hz : Real.sin (0.5 * δ) = 0
  · rw [if_pos hz]
    by_contra hne
    have hδpos : 0 < δ := lt_of_le_of_ne hδ0 hne
    have hpos2 : 0 < Real.sin (0.5 * δ) :=
      Real.sin_pos_of_pos_of_lt_pi (by linarith) (by linarith [Real.pi_pos])
    exact absurd hz (ne_of_gt hpos2)
  · rw [if_neg hz]
    rw [Real.arcsin_sin (by linarith [Real.pi_div_two_pos]) hhπ]
    ring

/-- **C6**: if the start and end poses have equal orientations, the relative
rotation is the identity, every interpolated orientation equals the common
orientation, and the axis-angle extraction takes the guarded zero-angle branch
returning the well-defined default axis (no division by the zero vector norm,
hence no NaN). -/
theorem c6_degenerate_rotation (s e : Pose) (n i : ℕ)
    (hs : Quaternion.normSq s.ori = 1) (he : e.ori = s.ori) :
    interpOrientation s e n i = s.ori ∧ aaAxis (rotationDiff s e) = defaultAxis := by
  have hq : rotationDiff s e = 1 := by
    rw [rotationDiff, he, Quaternion.star_mul_self, hs]
    exact_mod_cast rfl
  have hv : vecNorm (1 : Quaternion ℝ) = 0 := by
    unfold vecNorm
    simp
  have hangle : aaAngle (rotationDiff s e) = 0 := by
    rw [hq]
    unfold aaAngle
    rw [if_pos hv]
  refine ⟨?_, ?_⟩
  · have hrd : rotationDelta s e n i = 1 := by
      unfold rotationDelta angleDelta
      rw [hangle]
      apply Quaternion.ext <;> simp [quatOfAngleAxis]
    rw [interpOrientation, hrd, one_mul]
  · rw [hq]
    unfold aaAxis
    rw [if_pos hv]

/-- Witness for C6 at a concrete input: the identity pose, `n = 3`, `i = 1`. -/
theorem c6_witness :
    Quaternion.normSq identityPose.ori = 1 ∧
    (interpOrientation identityPose identityPose 3 1 = identityPose.ori ∧
      aaAxis (rotationDiff identityPose identityPose) = defaultAxis) := by
  have h1 : Quaternion.normSq identityPose.ori = 1 := by
    rw [Quaternion.normSq_def']
    norm_num [identityPose]
  exact ⟨h1, c6_degenerate_rotation identityPose identityPose 3 1 h1 rfl⟩

/-- The relative rotation of the demo poses: `star qs * qe = qd`. -/
theorem rotationDiff_demo : rotationDiff demoStart demoEnd = qd := by
  apply Quaternion.ext <;>
    simp [rotationDiff, demoStart, demoEnd, qs, qe, qd, Quaternion.mul_re,
      Quaternion.mul_imI, Quaternion.mul_imJ, Quaternion.mul_imK] <;>
    norm_num

/-- The vector norm of the demo relative rotation. -/
theorem vecNorm_qd : vecNorm qd = 4 / 5 := by
  have h : (qd.imI ^ 2 + qd.imJ ^ 2 + qd.imK ^ 2 : ℝ) = (4 / 5) ^ 2 := by
    norm_num [qd]
  rw [vecNorm, h, Real.sqrt_sq (by norm_num : (0 : ℝ) ≤ 4 / 5)]

/-- The axis-angle axis of the demo relative rotation: the unit y axis. -/
theorem aaAxis_qd : aaAxis qd = fun j => if j = 0 then 0 else if j = 1 then 1 else 0 := by
  have hvn0 : vecNorm qd ≠ 0 := by
    rw [vecNorm_qd]
    norm_num
  have hre : ¬qd.re < 0 := by
    norm_num [qd]
  funext j
  simp only [aaAxis, if_neg hvn0, hre, ite_false, vecNorm_qd, qVec]
  fin_cases j <;> norm_num [qd, Fin.ext_iff]

/-- Evaluating the source's interpolation at the demo input, `num_steps = 2`,
last index `i = 1`: the result is `qd * qs = qBad`. -/
theorem interpOrientation_demo : interpOrientation demoStart demoEnd 2 1 = qBad := by
  have hvn0 : vecNorm qd ≠ 0 := by
    rw [vecNorm_qd]
    norm_num
  have hangle : aaAngle qd = 2 * Real.arcsin (4 / 5) := by
    unfold aaAngle
    rw [if_neg hvn0, vecNorm_qd]
  have hcos : Real.cos (Real.arcsin (4 / 5)) = 3 / 5 := by
    rw [Real.cos_arcsin, show (1 : ℝ) - (4 / 5) ^ 2 = (3 / 5) ^ 2 by norm_num,
      Real.sqrt_sq (by norm_num : (0 : ℝ) ≤ 3 / 5)]
  have hsin : Real.sin (Real.arcsin (4 / 5)) = 4 / 5 :=
    Real.sin_arcsin (by norm_num) (by norm_num)
  have harg : 0.5 * (2 * Real.arcsin (4 / 5) / (((2 : ℕ) : ℝ) - 1)) * ((1 : ℕ) : ℝ)
      = Real.arcsin (4 / 5) := by
    push_cast
    ring
  unfold interpOrientation rotationDelta angleDelta deltaAxis
  rw [rotationDiff_demo, hangle, aaAxis_qd, harg]
  apply Quaternion.ext <;>
    simp [quatOfAngleAxis, hcos, hsin, demoStart, qs, qBad, Quaternion.mul_re,
      Quaternion.mul_imI, Quaternion.mul_imJ, Quaternion.mul_imK] <;>
    norm_num

/-- **C1**: at the failing input (`P0` oriented by `qs`, a rotation about x;
`P1` oriented by `qe = qs * qd` with `qd` a rotation about y; `n = 2`) the
source's interpolation is exact at index 0 and exact in position at the last
index, but its final orientation is `qd * qs = qBad` — the relative rotation
composed on the wrong side — which differs from `P1`'s orientation `qe` as a
rotation (it is neither `qe` nor `-qe`), so `interpolate(P0, P1, n)[n-1]` is
NOT `P1`. -/
theorem c1_endpoint_orientation_bug :
    interpOrientation demoStart demoEnd 2 0 = demoStart.ori ∧
    interpPosition demoStart demoEnd 2 0 = demoStart.pos ∧
    interpPosition demoStart demoEnd 2 1 = demoEnd.pos ∧
    interpOrientation demoStart demoEnd 2 1 = qBad ∧
    interpOrientation demoStart demoEnd 2 1 ≠ demoEnd.ori ∧
    interpOrientation demoStart demoEnd 2 1 ≠ -demoEnd.ori := by
  refine ⟨interpOrientation_zero _ _ _, interpPosition_zero _ _ _, ?_, interpOrientation_demo,
    ?_, ?_⟩
  · have := interpPosition_last demoStart demoEnd 2 (le_refl 2)
    simpa using this
  · rw [interpOrientation_demo]
    intro h
    have h2 := congrArg Quaternion.imK h
    norm_num [qBad, demoEnd, qe] at h2
  · rw [interpOrientation_demo]
    intro h
    have h2 := congrArg Quaternion.re h
    norm_num [qBad, demoEnd, qe] at h2

/-- Filtering a mapped list whose elements all satisfy the predicate keeps it. -/
theorem filter_map_all_true {α β : Type} (p : β → Bool) (f : α → β) (l : List α)
    (h : ∀ x, p (f x) = true) : (l.map f).filter p = l.map f := by
  induction l with
  | nil => rfl
  | cons x xs ih => simp [h x, ih]

/-- Filtering a mapped list whose elements all fail the predicate empties it. -/
theorem filter_map_all_false {α β : Type} (p : β → Bool) (f : α → β) (l : List α)
    (h : ∀ x, p (f x) = false) : (l.map f).filter p = [] := by
  induction l with
  | nil => rfl
  | cons x xs ih => simp [h x, ih]

/-- The constraint list of an assembled pick problem: the boundary joint
constraint followed by the single linear segment. -/
theorem pick_cntInfos (c : Ctor) (a f : Pose) (k : ℕ) :
    (generatePickProblem c a f k).cntInfos
      = TermInfo.jointConstraint 0 ("start_pos_constraint") c.env.currentJointValues
        :: linearSegmentTerms c a f k k := by
  simp [generatePickProblem, addCollisionCost, addLinearMotion,
    addInitialJointPosConstraint, addJointVelCost, initialPci]

/-- The cost list of an assembled pick problem: one joint-velocity term per
manipulator joint, then the single collision cost over `[0, k]`. -/
theorem pick_costInfos (c : Ctor) (a f : Pose) (k : ℕ) :
    (generatePickProblem c a f k).costInfos
      = (ctorKin c).jointNames.map (jointVelTerm (k * 2))
        ++ [TermInfo.collision ("collision") false 0 (k : ℤ) 1
            (createSafetyMarginDataVector ((k : ℤ) - 0 + 1).toNat 0.025 20)] := by
  simp [generatePickProblem, addCollisionCost, addLinearMotion,
    addInitialJointPosConstraint, addJointVelCost, initialPci]

/-- The constraint list of an assembled place problem: the boundary joint
constraint followed by the two linear segments. -/
theorem place_cntInfos (c : Ctor) (r a f : Pose) (k : ℕ) :
    (generatePlaceProblem c r a f k).cntInfos
      = TermInfo.jointConstraint 0 ("start_pos_constraint") c.env.currentJointValues
        :: (linearSegmentTerms c (fkStartPose c) r k 0
            ++ linearSegmentTerms c a f k (k * 2)) := by
  simp [generatePlaceProblem, addCollisionCost, addLinearMotion,
    addInitialJointPosConstraint, addJointVelCost, initialPci]

/-- The cost list of an assembled place problem: one joint-velocity term per
manipulator joint, then the single collision cost over `[k, 2k - 1]`. -/
theorem place_costInfos (c : Ctor) (r a f : Pose) (k : ℕ) :
    (generatePlaceProblem c r a f k).costInfos
      = (ctorKin c).jointNames.map (jointVelTerm (k * 3))
        ++ [TermInfo.collision ("collision") false (k : ℤ) ((k : ℤ) * 2 - 1) 1
            (createSafetyMarginDataVector (((k : ℤ) * 2 - 1) - (k : ℤ) + 1).toNat 0.025 20)] := by
  simp [generatePlaceProblem, addCollisionCost, addLinearMotion,
    addInitialJointPosConstraint, addJointVelCost, initialPci]

/-- Every term of a linear segment is a pose constraint. -/
theorem filter_staticPose_seg (c : Ctor) (s e : Pose) (N first : ℕ) :
    (linearSegmentTerms c s e N first).filter isStaticPose
      = linearSegmentTerms c s e N first :=
  filter_map_all_true _ _ _ (fun _ => rfl)

/-- A linear segment contains no boundary joint constraint. -/
theorem filter_jointConstraint_seg (c : Ctor) (s e : Pose) (N first : ℕ) :
    (linearSegmentTerms c s e N first).filter isJointConstraint = [] :=
  filter_map_all_false _ _ _ (fun _ => rfl)

/-- The joint-velocity block consists of joint-velocity terms only. -/
theorem filter_jointVel_jv (ns : ℕ) (names : List String) :
    (names.map (jointVelTerm ns)).filter isJointVel = names.map (jointVelTerm ns) :=
  filter_map_all_true _ _ _ (fun _ => rfl)

/-- The joint-velocity block contains no collision term. -/
theorem filter_collision_jv (ns : ℕ) (names : List String) :
    (names.map (jointVelTerm ns)).filter isCollision = [] :=
  filter_map_all_false _ _ _ (fun _ => rfl)

/-- Global timesteps of one linear segment: `first, first+1, ..., first+N-1`. -/
theorem timesteps_seg (c : Ctor) (s e : Pose) (N first : ℕ) :
    (linearSegmentTerms c s e N first).map timestepOf = List.range' first N := by
  rw [linearSegmentTerms, List.map_map, List.range'_eq_map_range]
  congr 1
  funext i
  show i + first = first + i
  exact Nat.add_comm i first

/-- Names of one linear segment: `"pose_" ++ t` for each global timestep `t`. -/
theorem names_seg (c : Ctor) (s e : Pose) (N first : ℕ) :
    (linearSegmentTerms c s e N first).map nameOf
      = (List.range' first N).map (fun t => "pose_" ++ Nat.repr t) := by
  rw [linearSegmentTerms, List.map_map, List.range'_eq_map_range, List.map_map]
  congr 1
  funext i
  show ("pose_") ++ Nat.repr (i + first) = ("pose_") ++ Nat.repr (first + i)
  rw [Nat.add_comm]

/-- First element of a linear segment with at least one step: it pins exactly
the segment's start pose. -/
theorem seg_head (c : Ctor) (s e : Pose) (N first : ℕ) (hN : 1 ≤ N) :
    ((linearSegmentTerms c s e N first).map poseXyzOf).head? = some s.pos ∧
    ((linearSegmentTerms c s e N first).map poseWxyzOf).head? = some s.ori := by
  obtain ⟨m, rfl⟩ : ∃ m, N = m + 1 := ⟨N - 1, (Nat.succ_pred_eq_of_pos hN).symm⟩
  rw [linearSegmentTerms, List.range_succ_eq_map]
  constructor
  · simp only [List.map_cons, List.head?_cons]
    rw [show poseXyzOf (poseTerm c s e (m + 1) first 0) = interpPosition s e (m + 1) 0 from rfl,
      interpPosition_zero]
  · simp only [List.map_cons, List.head?_cons]
    rw [show poseWxyzOf (poseTerm c s e (m + 1) first 0) = interpOrientation s e (m + 1) 0 from rfl,
      interpOrientation_zero]

/-- **C3**: for every `stepsPerPhase = k ≥ 1`, `generatePickProblem` yields
`2k` total steps; exactly one boundary joint constraint, at step 0, pinning the
current joint values; the pose constraints are exactly the one linear segment
built from `approachPose` to `finalPose`, i.e. `k` pose constraints at
timesteps `k .. 2k-1`, the first of which pins `approachPose` exactly; one
joint-velocity cost term per manipulator joint; and a single collision cost
spanning the inclusive range `[0, k]`. -/
theorem c3_pick_problem_shape (c : Ctor) (approachPose finalPose : Pose) (k : ℕ)
    (hk : 1 ≤ k) :
    (generatePickProblem c approachPose finalPose k).basicInfo.nSteps = 2 * k ∧
    ((generatePickProblem c approachPose finalPose k).cntInfos.filter isJointConstraint)
      = [TermInfo.jointConstraint 0 ("start_pos_constraint") c.env.currentJointValues] ∧
    ((generatePickProblem c approachPose finalPose k).cntInfos.filter isStaticPose)
      = linearSegmentTerms c approachPose finalPose k k ∧
    (((generatePickProblem c approachPose finalPose k).cntInfos.filter isStaticPose).map
      timestepOf) = List.range' k k ∧
    (((generatePickProblem c approachPose finalPose k).cntInfos.filter isStaticPose).length = k) ∧
    (((generatePickProblem c approachPose finalPose k).cntInfos.filter isStaticPose).map
      poseXyzOf).head? = some approachPose.pos ∧
    (((generatePickProblem c approachPose finalPose k).cntInfos.filter isStaticPose).map
      poseWxyzOf).head? = some approachPose.ori ∧
    ((generatePickProblem c approachPose finalPose k).costInfos.filter isJointVel).length
      = (ctorKin c).jointNames.length ∧
    (((generatePickProblem c approachPose finalPose k).costInfos.filter isCollision).map
      collisionRangeOf) = [(0, (k : ℤ))] := by
  have hcnt := pick_cntInfos c approachPose finalPose k
  have hcost := pick_costInfos c approachPose finalPose k
  have hpose : ((generatePickProblem c approachPose finalPose k).cntInfos.filter isStaticPose)
      = linearSegmentTerms c approachPose finalPose k k := by
    rw [hcnt, List.filter_cons_of_neg (by simp [isStaticPose]), filter_staticPose_seg]
  refine ⟨Nat.mul_comm k 2, ?_, hpose, ?_, ?_, ?_, ?_, ?_, ?_⟩
  · rw [hcnt, List.filter_cons_of_pos (by simp [isJointConstraint]), filter_jointConstraint_seg]
  · rw [hpose, timesteps_seg]
  · rw [hpose, linearSegmentTerms]
    simp
  · rw [hpose]
    exact (seg_head c approachPose finalPose k k hk).1
  · rw [hpose]
    exact (seg_head c approachPose finalPose k k hk).2
  · rw [hcost, List.filter_append, filter_jointVel_jv,
      List.filter_cons_of_neg (by simp [isJointVel]), List.filter_nil, List.append_nil]
    simp
  · rw [hcost, List.filter_append, filter_collision_jv,
      List.filter_cons_of_pos (by simp [isCollision]), List.filter_nil, List.nil_append]
    simp [collisionRangeOf]

/-- Witness for C3 at a concrete input: the demo constructor, `k = 2`. -/
theorem c3_witness :
    (1 ≤ 2) ∧
    ((generatePickProblem demoCtor demoStart demoEnd 2).basicInfo.nSteps = 2 * 2 ∧
    ((generatePickProblem demoCtor demoStart demoEnd 2).cntInfos.filter isJointConstraint)
      = [TermInfo.jointConstraint 0 ("start_pos_constraint") demoCtor.env.currentJointValues] ∧
    ((generatePickProblem demoCtor demoStart demoEnd 2).cntInfos.filter isStaticPose)
      = linearSegmentTerms demoCtor demoStart demoEnd 2 2 ∧
    (((generatePickProblem demoCtor demoStart demoEnd 2).cntInfos.filter isStaticPose).map
      timestepOf) = List.range' 2 2 ∧
    (((generatePickProblem demoCtor demoStart demoEnd 2).cntInfos.filter isStaticPose).length = 2) ∧
    (((generatePickProblem demoCtor demoStart demoEnd 2).cntInfos.filter isStaticPose).map
      poseXyzOf).head? = some demoStart.pos ∧
    (((generatePickProblem demoCtor demoStart demoEnd 2).cntInfos.filter isStaticPose).map
      poseWxyzOf).head? = some demoStart.ori ∧
    ((generatePickProblem demoCtor demoStart demoEnd 2).costInfos.filter isJointVel).length
      = (ctorKin demoCtor).jointNames.length ∧
    (((generatePickProblem demoCtor demoStart demoEnd 2).costInfos.filter isCollision).map
      collisionRangeOf) = [(0, (2 : ℤ))]) :=
  ⟨by norm_num, c3_pick_problem_shape demoCtor demoStart demoEnd 2 (by norm_num)⟩

/-- Indexed access to the positions of a linear segment. -/
theorem seg_get_pos (c : Ctor) (s e : Pose) (N first i : ℕ) (hi : i < N) :
    ((linearSegmentTerms c s e N first).map poseXyzOf)[i]? = some (interpPosition s e N i) := by
  rw [linearSegmentTerms, List.map_map, List.getElem?_map, List.getElem?_range hi]
  rfl

/-- Indexed access to the orientations of a linear segment. -/
theorem seg_get_wxyz (c : Ctor) (s e : Pose) (N first i : ℕ) (hi : i < N) :
    ((linearSegmentTerms c s e N first).map poseWxyzOf)[i]? = some (interpOrientation s e N i) := by
  rw [linearSegmentTerms, List.map_map, List.getElem?_map, List.getElem?_range hi]
  rfl

/-- The pose constraints of an assembled place problem are exactly the two
linear segments. -/
theorem place_filter_staticPose (c : Ctor) (r a f : Pose) (k : ℕ) :
    ((generatePlaceProblem c r a f k).cntInfos.filter isStaticPose)
      = linearSegmentTerms c (fkStartPose c) r k 0 ++ linearSegmentTerms c a f k (k * 2) := by
  rw [place_cntInfos, List.filter_cons_of_neg (by simp [isStaticPose]), List.filter_append,
    filter_staticPose_seg, filter_staticPose_seg]

/-- **C2 (amended)**: for every `stepsPerPhase = k ≥ 2` with a succeeding
forward-kinematics query, `generatePlaceProblem` yields `3k` total steps;
exactly one boundary joint constraint, at step 0; `k` pose constraints for
segment 1 at timesteps `0 .. k-1`, starting exactly (position and orientation)
from the end-effector's current forward-kinematics pose and ending at
`retreatPose`'s POSITION (the final orientation constraint of segment 1 is the
incremental rotation composed with the start orientation, which in general
differs from `retreatPose`'s orientation — see the counterexample); `k` pose
constraints for segment 2 at timesteps `2k .. 3k-1`; and a single collision
cost spanning exactly the inclusive range `[k, 2k-1]`. -/
theorem c2_place_problem_shape_amended (c : Ctor) (retreatPose approachPose finalPose : Pose)
    (k : ℕ) (hk : 2 ≤ k) (hfk : c.env.fkOk = true) :
    (generatePlaceProblem c retreatPose approachPose finalPose k).basicInfo.nSteps = 3 * k ∧
    ((generatePlaceProblem c retreatPose approachPose finalPose k).cntInfos.filter
      isJointConstraint)
      = [TermInfo.jointConstraint 0 ("start_pos_constraint") c.env.currentJointValues] ∧
    ((generatePlaceProblem c retreatPose approachPose finalPose k).cntInfos.filter isStaticPose)
      = linearSegmentTerms c (fkStartPose c) retreatPose k 0
        ++ linearSegmentTerms c approachPose finalPose k (k * 2) ∧
    (((generatePlaceProblem c retreatPose approachPose finalPose k).cntInfos.filter
      isStaticPose).map timestepOf) = List.range' 0 k ++ List.range' (k * 2) k ∧
    (((generatePlaceProblem c retreatPose approachPose finalPose k).cntInfos.filter
      isStaticPose).length = k + k) ∧
    (((generatePlaceProblem c retreatPose approachPose finalPose k).cntInfos.filter
      isStaticPose).map poseXyzOf)[0]? = some c.env.fkPose.pos ∧
    (((generatePlaceProblem c retreatPose approachPose finalPose k).cntInfos.filter
      isStaticPose).map poseWxyzOf)[0]? = some c.env.fkPose.ori ∧
    (((generatePlaceProblem c retreatPose approachPose finalPose k).cntInfos.filter
      isStaticPose).map poseXyzOf)[k - 1]? = some retreatPose.pos ∧
    (((generatePlaceProblem c retreatPose approachPose finalPose k).costInfos.filter
      isCollision).map collisionRangeOf) = [((k : ℤ), (k : ℤ) * 2 - 1)] ∧
    ((generatePlaceProblem c retreatPose approachPose finalPose k).costInfos.filter
      isJointVel).length = (ctorKin c).jointNames.length := by
  have hpose := place_filter_staticPose c retreatPose approachPose finalPose k
  have hfs : fkStartPose c = c.env.fkPose := by
    rw [fkStartPose, hfk]
    rfl
  have hlen1 : ((linearSegmentTerms c (fkStartPose c) retreatPose k 0).map poseXyzOf).length
      = k := by
    simp [linearSegmentTerms]
  have hlen1w : ((linearSegmentTerms c (fkStartPose c) retreatPose k 0).map poseWxyzOf).length
      = k := by
    simp [linearSegmentTerms]
  have hcost := place_costInfos c retreatPose approachPose finalPose k
  refine ⟨Nat.mul_comm k 3, ?_, hpose, ?_, ?_, ?_, ?_, ?_, ?_, ?_⟩
  · rw [place_cntInfos, List.filter_cons_of_pos (by simp [isJointConstraint]),
      List.filter_append, filter_jointConstraint_seg, filter_jointConstraint_seg]
    rfl
  · rw [hpose, List.map_append, timesteps_seg, timesteps_seg]
  · rw [hpose, List.length_append, linearSegmentTerms, linearSegmentTerms]
    simp
  · rw [hpose, List.map_append, List.getElem?_append_left (by rw [hlen1]; omega),
      seg_get_pos c _ _ k 0 0 (by omega), interpPosition_zero, hfs]
  · rw [hpose, List.map_append, List.getElem?_append_left (by rw [hlen1w]; omega),
      seg_get_wxyz c _ _ k 0 0 (by omega), interpOrientation_zero, hfs]
  · rw [hpose, List.map_append, List.getElem?_append_left (by rw [hlen1]; omega),
      seg_get_pos c _ _ k 0 (k - 1) (by omega), interpPosition_last _ _ k hk]
  · rw [hcost, List.filter_append, filter_collision_jv,
      List.filter_cons_of_pos (by simp [isCollision]), List.filter_nil, List.nil_append]
    simp [collisionRangeOf]
  · rw [hcost, List.filter_append, filter_jointVel_jv,
      List.filter_cons_of_neg (by simp [isJointVel]), List.filter_nil, List.append_nil]
    simp

/-- **C2 counterexample**: in the assembled place problem over the demo
constructor with `k = 2` and `retreatPose = demoEnd`, the LAST pose constraint
of segment 1 (index `k - 1 = 1`, timestep 1) constrains the orientation to
`qBad = qd * qs`, which is not `retreatPose`'s orientation: segment 1 does not
end at `retreatPose` in orientation, refuting the claim as stated. -/
theorem c2_counterexample :
    (((generatePlaceProblem demoCtor demoEnd demoStart demoStart 2).cntInfos.filter
      isStaticPose).map poseWxyzOf)[1]? = some qBad ∧
    (((generatePlaceProblem demoCtor demoEnd demoStart demoStart 2).cntInfos.filter
      isStaticPose).map poseWxyzOf)[1]? ≠ some demoEnd.ori := by
  have hfs : fkStartPose demoCtor = demoStart := rfl
  have hval : (((generatePlaceProblem demoCtor demoEnd demoStart demoStart 2).cntInfos.filter
      isStaticPose).map poseWxyzOf)[1]? = some qBad := by
    rw [place_filter_staticPose, List.map_append,
      List.getElem?_append_left (by simp [linearSegmentTerms]),
      hfs, seg_get_wxyz _ _ _ 2 0 1 (by omega), interpOrientation_demo]
  refine ⟨hval, ?_⟩
  rw [hval]
  intro h
  have h2 := congrArg Quaternion.imK (Option.some.inj h)
  norm_num [qBad, demoEnd, qe] at h2

/-- Witness for C2 (amended) at a concrete input: the demo constructor
(whose forward-kinematics query succeeds), `k = 2`. -/
theorem c2_witness :
    ((2 : ℕ) ≤ 2 ∧ demoCtor.env.fkOk = true) ∧
    ((generatePlaceProblem demoCtor demoEnd demoStart demoStart 2).basicInfo.nSteps = 3 * 2 ∧
    ((generatePlaceProblem demoCtor demoEnd demoStart demoStart 2).cntInfos.filter
      isJointConstraint)
      = [TermInfo.jointConstraint 0 ("start_pos_constraint") demoCtor.env.currentJointValues] ∧
    ((generatePlaceProblem demoCtor demoEnd demoStart demoStart 2).cntInfos.filter isStaticPose)
      = linearSegmentTerms demoCtor (fkStartPose demoCtor) demoEnd 2 0
        ++ linearSegmentTerms demoCtor demoStart demoStart 2 (2 * 2) ∧
    (((generatePlaceProblem demoCtor demoEnd demoStart demoStart 2).cntInfos.filter
      isStaticPose).map timestepOf) = List.range' 0 2 ++ List.range' (2 * 2) 2 ∧
    (((generatePlaceProblem demoCtor demoEnd demoStart demoStart 2).cntInfos.filter
      isStaticPose).length = 2 + 2) ∧
    (((generatePlaceProblem demoCtor demoEnd demoStart demoStart 2).cntInfos.filter
      isStaticPose).map poseXyzOf)[0]? = some demoCtor.env.fkPose.pos ∧
    (((generatePlaceProblem demoCtor demoEnd demoStart demoStart 2).cntInfos.filter
      isStaticPose).map poseWxyzOf)[0]? = some demoCtor.env.fkPose.ori ∧
    (((generatePlaceProblem demoCtor demoEnd demoStart demoStart 2).cntInfos.filter
      isStaticPose).map poseXyzOf)[2 - 1]? = some demoEnd.pos ∧
    (((generatePlaceProblem demoCtor demoEnd demoStart demoStart 2).costInfos.filter
      isCollision).map collisionRangeOf) = [((2 : ℤ), (2 : ℤ) * 2 - 1)] ∧
    ((generatePlaceProblem demoCtor demoEnd demoStart demoStart 2).costInfos.filter
      isJointVel).length = (ctorKin demoCtor).jointNames.length) :=
  ⟨⟨by norm_num, rfl⟩,
    c2_place_problem_shape_amended demoCtor demoEnd demoStart demoStart 2 (by norm_num) rfl⟩

/-- **C4**: `addLinearMotion` called with `num_steps = 1` does NOT fail: the
embedding is total because the source has no guard and raises no error — the
loop emits exactly one pose-constraint term (at the first timestep), and the
interpolation deltas on lines 72/77 are computed with the divisor
`num_steps - 1 = 0` (IEEE division by zero in the C++ source). -/
theorem c4_degenerate_steps_no_failure :
    (linearSegmentTerms demoCtor demoStart demoEnd 1 0).length = 1 ∧
    (linearSegmentTerms demoCtor demoStart demoEnd 1 0).map timestepOf = [0] ∧
    xyzDelta demoStart demoEnd 1 = fun j => (demoEnd.pos j - demoStart.pos j) / 0 := by
  refine ⟨rfl, rfl, ?_⟩
  funext j
  norm_num [xyzDelta]

/-- **C5**: when the forward-kinematics query fails (`fkOk = false`), the
source (line 156) ignores the returned success flag: assembly is NOT aborted
and a fully built problem — `3k = 6` steps, all `1 + 2 + 2 = 5` constraints,
all `2 + 1 = 3` costs — is returned to the caller, built from the
indeterminate start pose. -/
theorem c5_fk_failure_ignored :
    failCtor.env.fkOk = false ∧
    (generatePlaceProblem failCtor demoEnd demoStart demoStart 2).basicInfo.nSteps = 6 ∧
    (generatePlaceProblem failCtor demoEnd demoStart demoStart 2).cntInfos.length = 5 ∧
    (generatePlaceProblem failCtor demoEnd demoStart demoStart 2).costInfos.length = 3 := by
  refine ⟨rfl, rfl, ?_, ?_⟩
  · rw [place_cntInfos]
    simp [linearSegmentTerms]
  · rw [place_costInfos]
    simp [ctorKin, failCtor, failEnv, demoEnv, demoCtor, demoManip]

/-- Mapping a constant-valued function over a list yields a replicate. -/
theorem map_const_eq_replicate {α β : Type} (f : α → β) (b : β) (l : List α)
    (h : ∀ x, f x = b) : l.map f = List.replicate l.length b := by
  induction l with
  | nil => rfl
  | cons x xs ih => simp [h x, ih, List.replicate_succ]

/-- **C9**: the `coeff` parameter of `addJointVelCost` has no effect on its
output (line 36 hard-codes the coefficient `5.0`), every joint-velocity cost
term of both assembled problems carries the coefficient vector `[5.0]`, and
both `generatePickProblem` and `generatePlaceProblem` pass `coeff = 5.0`. -/
theorem c9_joint_vel_coeff_constant (c : Ctor) (pci : ProblemConstructionInfo) (coeff : ℝ)
    (a f r : Pose) (k : ℕ) :
    addJointVelCost c pci coeff = addJointVelCost c pci 5 ∧
    ((generatePickProblem c a f k).costInfos.filter isJointVel).map coeffsOf
      = List.replicate (ctorKin c).jointNames.length [(5 : ℝ)] ∧
    ((generatePlaceProblem c r a f k).costInfos.filter isJointVel).map coeffsOf
      = List.replicate (ctorKin c).jointNames.length [(5 : ℝ)] := by
  refine ⟨rfl, ?_, ?_⟩
  · rw [pick_costInfos, List.filter_append, filter_jointVel_jv,
      List.filter_cons_of_neg (by simp [isJointVel]), List.filter_nil, List.append_nil,
      List.map_map]
    exact map_const_eq_replicate _ _ _ (fun _ => rfl)
  · rw [place_costInfos, List.filter_append, filter_jointVel_jv,
      List.filter_cons_of_neg (by simp [isJointVel]), List.filter_nil, List.append_nil,
      List.map_map]
    exact map_const_eq_replicate _ _ _ (fun _ => rfl)

/-- **C10**: in both assembled problems the step-0 boundary constraint pins
`env_->getCurrentJointValues()` — the whole-robot, UNSCOPED query — while the
stationary seed uses `env_->getCurrentJointValues(pci.kin->getName())` — the
manipulator-scoped query; at `mismatchCtor` (a robot with three joints of
which the manipulator owns two) the pinned value vector's length differs from
the seed's length inside one and the same assembled problem. -/
theorem c10_boundary_vs_seed_scope (c : Ctor) (a f r : Pose) (k : ℕ) :
    (generatePickProblem c a f k).cntInfos.head?
      = some (TermInfo.jointConstraint 0 ("start_pos_constraint") c.env.currentJointValues) ∧
    (generatePickProblem c a f k).initInfo.data
      = c.env.currentJointValuesOf (ctorKin c).name ∧
    (generatePlaceProblem c r a f k).cntInfos.head?
      = some (TermInfo.jointConstraint 0 ("start_pos_constraint") c.env.currentJointValues) ∧
    (generatePlaceProblem c r a f k).initInfo.data
      = c.env.currentJointValuesOf (ctorKin c).name ∧
    mismatchCtor.env.currentJointValues.length
      ≠ ((generatePickProblem mismatchCtor a f k).initInfo.data).length := by
  refine ⟨?_, rfl, ?_, rfl, ?_⟩
  · rw [pick_cntInfos]
    rfl
  · rw [place_cntInfos]
    rfl
  · show (3 : ℕ) ≠ 2
    decide

theorem digitVal_digitChar (m : ℕ) (h : m < 10) : digitVal (Nat.digitChar m) = m := by
  interval_cases m <;> rfl

theorem valFrom_cons (a : ℕ) (ch : Char) (l : List Char) :
    valFrom a (ch :: l) = valFrom (a * 10 + digitVal ch) l := rfl

theorem valFrom_toDigitsCore (fuel : ℕ) :
    ∀ (n : ℕ) (ds : List Char) (a : ℕ), n < fuel →
      ∃ p : ℕ, 0 < p ∧ valFrom a (Nat.toDigitsCore 10 fuel n ds) = valFrom (a * p + n) ds := by
  induction fuel with
  | zero => omega
  | succ fuel ih =>
    intro n ds a hfuel
    rw [Nat.toDigitsCore]
    by_cases h : n / 10 = 0
    · refine ⟨10, by norm_num, ?_⟩
      have hn : n < 10 := by omega
      simp only [h, if_true]
      rw [valFrom_cons, digitVal_digitChar _ (Nat.mod_lt _ (by norm_num)),
        Nat.mod_eq_of_lt hn]
    · have hpos : 0 < n := by
        rcases Nat.eq_zero_or_pos n with h0 | h0
        · exact absurd (by simp [h0]) h
        · exact h0
      have hlt : n / 10 < fuel := by
        have := Nat.div_lt_self hpos (by norm_num : (1 : ℕ) < 10)
        omega
      obtain ⟨p, hp, hv⟩ := ih (n / 10) (Nat.digitChar (n % 10) :: ds) a hlt
      refine ⟨p * 10, by positivity, ?_⟩
      simp only [h, if_false]
      rw [hv, valFrom_cons, digitVal_digitChar _ (Nat.mod_lt _ (by norm_num))]
      congr 1
      have hdm := Nat.div_add_mod n 10
      calc (a * p + n / 10) * 10 + n % 10
          = a * (p * 10) + (10 * (n / 10) + n % 10) := by ring
        _ = a * (p * 10) + n := by rw [hdm]

theorem valFrom_toDigits (n : ℕ) : valFrom 0 (Nat.toDigits 10 n) = n := by
  obtain ⟨p, hp, hv⟩ := valFrom_toDigitsCore (n + 1) n [] 0 (Nat.lt_succ_self n)
  rw [Nat.toDigits, hv]
  simp [valFrom]

theorem nat_repr_injective : Function.Injective Nat.repr := by
  intro m n h
  have hd : Nat.toDigits 10 m = Nat.toDigits 10 n := by
    have hdata := congrArg String.data h
    simpa [Nat.repr, List.asString] using hdata
  have hval := congrArg (valFrom 0) hd
  rwa [valFrom_toDigits, valFrom_toDigits] at hval

theorem pose_name_injective :
    Function.Injective (fun t : ℕ => ("pose_") ++ Nat.repr t) := by
  intro m n h
  have hdata := congrArg String.data h
  simp only [String.data_append] at hdata
  have hrepr : (Nat.repr m).data = (Nat.repr n).data :=
    List.append_cancel_left hdata
  exact nat_repr_injective (String.ext hrepr)

/-- The pose constraints of an assembled pick problem are exactly the one
linear segment. -/
theorem pick_filter_staticPose (c : Ctor) (a f : Pose) (k : ℕ) :
    ((generatePickProblem c a f k).cntInfos.filter isStaticPose)
      = linearSegmentTerms c a f k k := by
  rw [pick_cntInfos, List.filter_cons_of_neg (by simp [isStaticPose]), filter_staticPose_seg]

/-- **C8**: `buildLinearSegment` (= `addLinearMotion`) with `numSteps = N ≥ 2`
emits exactly `N` pose-constraint terms at the strictly increasing, gapless
global timesteps `firstTimestep .. firstTimestep + N - 1`; each term's name is
`"pose_"` followed by its global timestep; and consequently the pose-constraint
names within one assembled problem (pick or place) are pairwise distinct. -/
theorem c8_segment_terms (c : Ctor) (s e : Pose) (N first : ℕ) (r a f : Pose) (k : ℕ)
    (hN : 2 ≤ N) :
    (linearSegmentTerms c s e N first).length = N ∧
    (linearSegmentTerms c s e N first).map timestepOf = List.range' first N ∧
    (linearSegmentTerms c s e N first).map nameOf
      = (List.range' first N).map (fun t => ("pose_") ++ Nat.repr t) ∧
    ((((generatePickProblem c a f k).cntInfos.filter isStaticPose).map nameOf).Nodup) ∧
    ((((generatePlaceProblem c r a f k).cntInfos.filter isStaticPose).map nameOf).Nodup) := by
  have hTnodup : (List.range' 0 k ++ List.range' (k * 2) k).Nodup := by
    refine (List.nodup_range' _ _).append (List.nodup_range' _ _) ?_
    intro x hx1 hx2
    rw [List.mem_range'] at hx1 hx2
    obtain ⟨i, hi, rfl⟩ := hx1
    obtain ⟨j, hj, heq⟩ := hx2
    omega
  refine ⟨by simp [linearSegmentTerms], timesteps_seg c s e N first, names_seg c s e N first,
    ?_, ?_⟩
  · rw [pick_filter_staticPose, names_seg]
    exact List.Nodup.map pose_name_injective (List.nodup_range' _ _)
  · rw [place_filter_staticPose, List.map_append, names_seg, names_seg, ← List.map_append]
    exact List.Nodup.map pose_name_injective hTnodup

/-- Witness for C8 at a concrete input: the demo segment with `N = 2`,
`firstTimestep = 7`, and the demo problems with `k = 2`. -/
theorem c8_witness :
    ((2 : ℕ) ≤ 2) ∧
    ((linearSegmentTerms demoCtor demoStart demoEnd 2 7).length = 2 ∧
    (linearSegmentTerms demoCtor demoStart demoEnd 2 7).map timestepOf = List.range' 7 2 ∧
    (linearSegmentTerms demoCtor demoStart demoEnd 2 7).map nameOf
      = (List.range' 7 2).map (fun t => ("pose_") ++ Nat.repr t) ∧
    ((((generatePickProblem demoCtor demoStart demoEnd 2).cntInfos.filter
      isStaticPose).map nameOf).Nodup) ∧
    ((((generatePlaceProblem demoCtor demoEnd demoStart demoStart 2).cntInfos.filter
      isStaticPose).map nameOf).Nodup)) :=
  ⟨by norm_num,
    c8_segment_terms demoCtor demoStart demoEnd 2 7 demoEnd demoStart demoStart 2 (by norm_num)⟩

/-- Witness for C7 at a concrete input: identity start orientation, end
orientation `qd` (a rotation about y), same position, `n = 2`, `i = 0`. -/
theorem c7_witness :
    (Quaternion.normSq identityPose.ori = 1 ∧ Quaternion.normSq rotOnlyPose.ori = 1 ∧
      identityPose.pos = rotOnlyPose.pos ∧ (2 : ℕ) ≤ 2 ∧ 0 + 1 < 2) ∧
    angleBetween (interpOrientation identityPose rotOnlyPose 2 0)
        (interpOrientation identityPose rotOnlyPose 2 (0 + 1))
      = aaAngle (rotationDiff identityPose rotOnlyPose) / (((2 : ℕ) : ℝ) - 1) := by
  have h1 : Quaternion.normSq identityPose.ori = 1 := by
    rw [Quaternion.normSq_def']
    norm_num [identityPose]
  have h2 : Quaternion.normSq rotOnlyPose.ori = 1 := by
    rw [Quaternion.normSq_def']
    norm_num [rotOnlyPose, qd]
  exact ⟨⟨h1, h2, rfl, by norm_num, by norm_num⟩,
    c7_constant_step_angle identityPose rotOnlyPose 2 0 h1 h2 rfl (by norm_num) (by norm_num)⟩
